import Mathlib

/-!
# Verification of the userop-validator core

Shallow embedding of the ERC-4337 user-operation validator:
the opcode rule table, the storage rule engine (`checkStorageAccess`),
the per-instruction step inspector (`stepHandler`, from `validateExecutionRules`
in `validator.ts`), the reputation store (`InMemoryReputationStore` in
`reputation.ts`), the static structural checks (`validateUserOpStructure`,
`validateGasLimits`) and the pre-verification gas estimator
(`calcPreVerificationGas` in `gas.ts`), together with theorems about the
properties the specification states for them.

Addresses are modelled as their 160-bit value (a `Nat`); JavaScript `Map`s as
functions to `Option`; exceptions as `Option`-valued results (`none` = throw).
-/

set_option maxRecDepth 16384

namespace UserOpValidator

/-! ## Hex-string utilities (semantics of the JS primitives used by the source) -/

/-- Value of one hexadecimal digit, `none` for a non-hex character. -/
def hexDigitVal (c : Char) : Option Nat :=
  if '0' ≤ c ∧ c ≤ '9' then some (c.toNat - '0'.toNat)
  else if 'a' ≤ c ∧ c ≤ 'f' then some (c.toNat - 'a'.toNat + 10)
  else if 'A' ≤ c ∧ c ≤ 'F' then some (c.toNat - 'A'.toNat + 10)
  else none

def isHexDigitChar (c : Char) : Bool := (hexDigitVal c).isSome

/-- Value of a non-empty all-hex digit list, most significant first. -/
def hexDigitsVal (l : List Char) : Nat :=
  l.foldl (fun acc c => acc * 16 + ((hexDigitVal c).getD 0)) 0

/-- The lowercase character of one hex digit value. -/
def hexDigitChar (d : Nat) : Char :=
  if d < 10 then Char.ofNat ('0'.toNat + d) else Char.ofNat ('a'.toNat + (d - 10))

/-- Fuelled digit extraction (the fuel only bounds the recursion depth; any
fuel of at least the digit count gives the digits). -/
def natToHexCore : Nat → Nat → List Char
  | 0, _ => []
  | fuel + 1, n =>
      if n < 16 then [hexDigitChar n]
      else natToHexCore fuel (n / 16) ++ [hexDigitChar (n % 16)]

/-- Digits of the lowercase minimal hex representation, most significant
first (`0` gives `['0']`, no leading zeros otherwise). -/
def natToHexList (n : Nat) : List Char := natToHexCore (n + 1) n

/-- Lowercase minimal hex representation of a natural number
(JS `BigInt.prototype.toString(16)` for non-negative values; `0` prints `"0"`). -/
def natToHex (n : Nat) : String := String.mk (natToHexList n)

/-- `BigInt.prototype.toString(16)` as a character list: minimal lowercase
hex, with a leading minus sign for negative values. -/
def intToHexL (n : Int) : List Char :=
  if n < 0 then '-' :: natToHexList n.natAbs else natToHexList n.toNat

/-- `String.prototype.padStart(len, c)`. -/
def padStart (s : String) (len : Nat) (c : Char) : String :=
  String.mk (List.replicate (len - s.length) c) ++ s

/-- Whether a string starts with `0x` (`startsWith('0x')` on the character
content). -/
def isHexPrefixed (s : String) : Bool :=
  match s.data with
  | '0' :: 'x' :: _ => true
  | _ => false

/-- Both-ends whitespace trimming of `String.prototype.trim`, on the
character list. -/
def trimWs (l : List Char) : List Char :=
  ((l.dropWhile Char.isWhitespace).reverse.dropWhile Char.isWhitespace).reverse

/-! ## Addresses

The source manipulates `Address` objects from `@ethereumjs/util`: 20-byte
values with structural equality (`equals`) and lowercase `0x`-prefixed
rendering (`toString`).  We model an address by its numeric value. -/

abbrev Address := Nat

/-- `Address.toString()`: `0x` followed by exactly 40 lowercase hex digits. -/
def addrToHex (a : Address) : String := "0x" ++ padStart (natToHex a) 40 '0'

/-- `createAddressFromString` (throw modelled as `none`): accepts exactly
`0x` followed by 40 hex digits (either case). -/
def parseAddr (s : String) : Option Address :=
  match s.data with
  | '0' :: 'x' :: rest =>
      if rest.length = 40 ∧ rest.all isHexDigitChar
      then some (hexDigitsVal rest)
      else none
  | _ => none

/-! ## Data model (`types.ts`) -/

/-- `EntityType` from `types.ts`. -/
inductive EntityType where
  | SENDER | FACTORY | PAYMASTER | ENTRYPOINT
deriving DecidableEq, Repr

/-- String value of the `EntityType` enum member (the enum is string-valued). -/
def EntityType.name : EntityType → String
  | .SENDER => "SENDER"
  | .FACTORY => "FACTORY"
  | .PAYMASTER => "PAYMASTER"
  | .ENTRYPOINT => "ENTRYPOINT"

/-- The `type` discriminant of `ValidationViolation`. -/
inductive ViolationType where
  | BANNED_OPCODE | ILLEGAL_STORAGE_ACCESS | ENTITY_RESTRICTION
deriving DecidableEq, Repr

/-- `ValidationViolation` from `types.ts`.  The optional `storageAddress` and
`slot` fields exist on the interface; a violation literal that omits them is
modelled with `none` there.  `pc` is always set by the validator. -/
structure ValidationViolation where
  vtype : ViolationType
  entity : EntityType
  message : String
  pc : Nat
  storageAddress : Option String
  slot : Option String
deriving DecidableEq, Repr

/-- `ValidationContext` from `validator.ts`. -/
structure ValidationContext where
  entity : EntityType
  sender : Address
  factory : Option Address
  paymaster : Option Address
  entryPoint : Address
  violations : List ValidationViolation
  throwOnViolation : Bool
deriving DecidableEq, Repr

/-- `createValidationContext` (entity starts at `SENDER`, empty violations). -/
def createValidationContext (sender : Address) (entryPoint : Address)
    (factory : Option Address) (paymaster : Option Address)
    (throwOnViolation : Bool) : ValidationContext :=
  { entity := .SENDER, sender := sender, entryPoint := entryPoint,
    factory := factory, paymaster := paymaster, violations := [],
    throwOnViolation := throwOnViolation }

/-- `setCurrentEntity`. -/
def setCurrentEntity (ctx : ValidationContext) (e : EntityType) : ValidationContext :=
  { ctx with entity := e }

/-- `context.violations.push(v)`. -/
def pushViolation (ctx : ValidationContext) (v : ValidationViolation) : ValidationContext :=
  { ctx with violations := ctx.violations ++ [v] }

/-! ## Opcode rule table (`validator.ts`) -/

/-- `BANNED_OPCODES` — the set literal from `validator.ts` (DIFFICULTY and
PREVRANDAO are the same value 0x44). -/
def bannedOpcodes : List Nat :=
  [0x3a, 0x42, 0x40, 0x43, 0x44, 0x41, 0x45, 0x47, 0x48]

/-- `OPCODE_NAMES[opcode] || "0x" + opcode.toString(16)`. -/
def opcodeName (c : Nat) : String :=
  if c = 0x3a then "GASPRICE"
  else if c = 0x42 then "TIMESTAMP"
  else if c = 0x40 then "BLOCKHASH"
  else if c = 0x43 then "NUMBER"
  else if c = 0x44 then "DIFFICULTY/PREVRANDAO"
  else if c = 0x41 then "COINBASE"
  else if c = 0x45 then "GASLIMIT"
  else if c = 0x47 then "SELFBALANCE"
  else if c = 0x48 then "BASEFEE"
  else "0x" ++ natToHex c

/-! ## Storage rule engine (`checkStorageAccess` in `validator.ts`) -/

/-- The denial record `checkStorageAccess` builds; the literal in the source
sets only `type`, `entity`, `message` and `pc`. -/
def storageDenialViolation (entity : EntityType) (storageAddress : Address)
    (slot : String) (pc : Nat) : ValidationViolation :=
  { vtype := .ILLEGAL_STORAGE_ACCESS, entity := entity,
    message := "Illegal storage access: " ++ entity.name ++ " accessing slot "
      ++ slot ++ " of " ++ addrToHex storageAddress,
    pc := pc, storageAddress := none, slot := none }

/-- `checkStorageAccess(context, storageAddress, slot, pc)`:
`none` = access allowed, `some v` = denial violation. -/
def checkStorageAccess (ctx : ValidationContext) (storageAddress : Address)
    (slot : String) (pc : Nat) : Option ValidationViolation :=
  if storageAddress = ctx.entryPoint then none
  else
    match ctx.entity with
    | .SENDER =>
        if storageAddress = ctx.sender then none
        else some (storageDenialViolation ctx.entity storageAddress slot pc)
    | .FACTORY =>
        if ctx.factory = some storageAddress then none
        else if storageAddress = ctx.sender then none
        else some (storageDenialViolation ctx.entity storageAddress slot pc)
    | .PAYMASTER =>
        if ctx.paymaster = some storageAddress then none
        else some (storageDenialViolation ctx.entity storageAddress slot pc)
    | .ENTRYPOINT => none

/-! ## Step inspector (`validateExecutionRules` step listener) -/

/-- One `InterpreterStep` event: opcode, program counter, stack (top is the
last element) and the address of the account whose code is executing. -/
structure Step where
  opcode : Nat
  pc : Nat
  stack : List Nat
  address : Address
deriving DecidableEq, Repr

/-- The banned-opcode violation literal from check 1 of the step listener. -/
def bannedViolation (ctx : ValidationContext) (s : Step) : ValidationViolation :=
  { vtype := .BANNED_OPCODE, entity := ctx.entity,
    message := "Opcode " ++ opcodeName s.opcode
      ++ " is banned during validation (entity: " ++ ctx.entity.name ++ ")",
    pc := s.pc, storageAddress := none, slot := none }

/-- The entity-restriction violation literal from check 2 of the step listener. -/
def createViolation (ctx : ValidationContext) (s : Step) : ValidationViolation :=
  { vtype := .ENTITY_RESTRICTION, entity := ctx.entity,
    message := "CREATE/CREATE2 only allowed for Factory entity, current: "
      ++ ctx.entity.name,
    pc := s.pc, storageAddress := none, slot := none }

/-- Check 3 of the step listener (storage rules): reads the top stack element
as a 32-byte zero-padded hex slot only when the stack is non-empty. -/
def storageStep (ctx : ValidationContext) (s : Step) :
    ValidationContext × Option String :=
  if s.opcode = 0x54 ∨ s.opcode = 0x55 then
    match s.stack.getLast? with
    | some key =>
        let keyHex := "0x" ++ padStart (natToHex key) 64 '0'
        match checkStorageAccess ctx s.address keyHex s.pc with
        | some v =>
            let ctx1 := pushViolation ctx v
            if ctx1.throwOnViolation then (ctx1, some v.message) else (ctx1, none)
        | none => (ctx, none)
    | none => (ctx, none)
  else (ctx, none)

/-- Check 2 of the step listener (CREATE/CREATE2 only for the factory),
then check 3. -/
def createStep (ctx : ValidationContext) (s : Step) :
    ValidationContext × Option String :=
  if (s.opcode = 0xf0 ∨ s.opcode = 0xf5) ∧ ctx.entity ≠ .FACTORY then
    let ctx1 := pushViolation ctx (createViolation ctx s)
    if ctx1.throwOnViolation then (ctx1, some (createViolation ctx s).message)
    else storageStep ctx1 s
  else storageStep ctx s

/-- The whole step listener: banned-opcode check, then creation restriction,
then storage rules.  The second component is the thrown
`ValidationViolationError` message (`none` when nothing is thrown); a throw
skips the remaining checks. -/
def stepHandler (ctx : ValidationContext) (s : Step) :
    ValidationContext × Option String :=
  if bannedOpcodes.contains s.opcode then
    let ctx1 := pushViolation ctx (bannedViolation ctx s)
    if ctx1.throwOnViolation then (ctx1, some (bannedViolation ctx s).message)
    else createStep ctx1 s
  else createStep ctx s

/-! ## Reputation store (`InMemoryReputationStore` in `reputation.ts`) -/

inductive ReputationStatus where
  | OK | THROTTLED | BANNED
deriving DecidableEq, Repr

def ReputationStatus.text : ReputationStatus → String
  | .OK => "OK"
  | .THROTTLED => "THROTTLED"
  | .BANNED => "BANNED"

structure ReputationEntry where
  address : String
  opsSeen : Nat
  opsFailed : Nat
  lastSeenBlock : Nat
  status : ReputationStatus
deriving DecidableEq, Repr

/-- The backing `Map<string, ReputationEntry>` keyed by `address.toString()`,
modelled as a function to `Option`. -/
structure InMemoryReputationStore where
  store : String → Option ReputationEntry

def MAX_FAILURES_ALLOWED : Nat := 5
def THROTTLE_THRESHOLD : Nat := 2

def emptyRepStore : InMemoryReputationStore := ⟨fun _ => none⟩

/-- `updateEntryStatus`: recompute the status from `opsFailed`. -/
def statusFromFailures (opsFailed : Nat) : ReputationStatus :=
  if opsFailed ≥ MAX_FAILURES_ALLOWED then .BANNED
  else if opsFailed ≥ THROTTLE_THRESHOLD then .THROTTLED
  else .OK

/-- `getStatus`: defaults to `OK` for unknown addresses. -/
def getStatus (st : InMemoryReputationStore) (a : Address) : ReputationStatus :=
  match st.store (addrToHex a) with
  | none => .OK
  | some e => e.status

/-- `getEntry`. -/
def getEntry (st : InMemoryReputationStore) (a : Address) : Option ReputationEntry :=
  st.store (addrToHex a)

/-- `updateStatus(address, success)`: create the entry if absent, increment
`opsSeen`, increment `opsFailed` unless successful, recompute the status. -/
def updateStatus (st : InMemoryReputationStore) (a : Address) (success : Bool) :
    InMemoryReputationStore :=
  let key := addrToHex a
  let entry := (st.store key).getD
    { address := key, opsSeen := 0, opsFailed := 0, lastSeenBlock := 0, status := .OK }
  let entry1 := { entry with
    opsSeen := entry.opsSeen + 1,
    opsFailed := entry.opsFailed + (if success then 0 else 1) }
  let entry2 := { entry1 with status := statusFromFailures entry1.opsFailed }
  ⟨fun k => if k = key then some entry2 else st.store k⟩

/-- `clear(address)`. -/
def clearEntry (st : InMemoryReputationStore) (a : Address) : InMemoryReputationStore :=
  ⟨fun k => if k = addrToHex a then none else st.store k⟩

/-- A finite sequence of `updateStatus(a, ·)` calls, oldest first. -/
def applyUpdates (st : InMemoryReputationStore) (a : Address)
    (updates : List Bool) : InMemoryReputationStore :=
  updates.foldl (fun s b => updateStatus s a b) st

/-- `opsSeen` of the address's entry, 0 when the address is unknown. -/
def repOpsSeen (st : InMemoryReputationStore) (a : Address) : Nat :=
  ((getEntry st a).map ReputationEntry.opsSeen).getD 0

/-- `opsFailed` of the address's entry, 0 when the address is unknown. -/
def repOpsFailed (st : InMemoryReputationStore) (a : Address) : Nat :=
  ((getEntry st a).map ReputationEntry.opsFailed).getD 0

/-! ## Simulation driver

`parseFactory` / `parsePaymaster` follow `simulation.ts`: presence is decided
by length (at least 20 bytes), and the first 20 bytes are the address.  A
slice that is not valid hex would make `createAddressFromString` throw; the
driver's precondition (spec invariant 5: the operation passed
`validateUserOpStructure`) rules that out, and we model it as absence. -/

/-- `parseFactory(initCode)`. -/
def parseFactory (initCode : String) : Option Address :=
  if initCode = "" ∨ initCode = "0x" ∨ initCode.length < 42 then none
  else parseAddr (initCode.take 42)

/-- `parsePaymaster(paymasterAndData)`. -/
def parsePaymaster (paymasterAndData : String) : Option Address :=
  if paymasterAndData = "" ∨ paymasterAndData = "0x" ∨ paymasterAndData.length < 42
  then none
  else parseAddr (paymasterAndData.take 42)

/-- The phases the driver can run through the EVM. -/
inductive Phase where
  | factory | sender | paymaster
deriving DecidableEq, Repr

/-- Modelled from the spec: what one EVM sub-call produces while the inspector
is attached — the violations the inspector recorded during the call (tagged
with the then-current entity by the driver model) and the exception the call
ended with, if any.  The embedded EVM itself is an external collaborator, so a
simulation run is parametrised by one outcome per phase. -/
structure PhaseOutcome where
  violations : List ValidationViolation
  err : Option String

/-- The fields of a `PackedUserOperation` the driver model reads. -/
structure DriverOp where
  sender : String
  initCode : String
  paymasterAndData : String

/-- `SimulationResult`, extended with the trace data the theorems are about:
which phases issued an EVM call, and the reputation store after the
post-phase update. -/
structure SimResult where
  isValid : Bool
  errors : List String
  violations : List ValidationViolation
  evmCalls : List Phase
  repAfter : InMemoryReputationStore

/-- Modelled from the spec: the reputation pre-check error for one
present entity — fetch the status and report `"<role> <addr> is BANNED"` /
`"... is THROTTLED"`. -/
def precheckEntity (rep : InMemoryReputationStore) (role : String) (a : Address) :
    List String :=
  match getStatus rep a with
  | .BANNED => [role ++ " " ++ addrToHex a ++ " is BANNED"]
  | .THROTTLED => [role ++ " " ++ addrToHex a ++ " is THROTTLED"]
  | .OK => []

/-- Modelled from the spec: the reputation pre-check over the present
factory and paymaster. -/
def precheckErrors (rep : InMemoryReputationStore)
    (factory paymaster : Option Address) : List String :=
  (match factory with | some f => precheckEntity rep "factory" f | none => []) ++
  (match paymaster with | some p => precheckEntity rep "paymaster" p | none => [])

/-- The inspector tags each recorded violation with the entity current at the
moment of emission; the driver sets that entity at the phase boundary. -/
def tagEntity (e : EntityType) (vs : List ValidationViolation) :
    List ValidationViolation :=
  vs.map (fun v => { v with entity := e })

/-- Modelled from the spec (step 5): after the phases, update the reputation
of each present entity with `update(addr, entityViolations.isEmpty)`, where
only that entity's rule violations count (EVM errors do not). -/
def reputationPostUpdate (rep : InMemoryReputationStore)
    (factory paymaster : Option Address) (violations : List ValidationViolation) :
    InMemoryReputationStore :=
  let rep1 := match factory with
    | some f =>
        updateStatus rep f
          ((violations.filter (fun v => v.entity == EntityType.FACTORY)).isEmpty)
    | none => rep
  match paymaster with
  | some p =>
      updateStatus rep1 p
        ((violations.filter (fun v => v.entity == EntityType.PAYMASTER)).isEmpty)
  | none => rep1

/-- The EVM calls the three phases issue, in driver order: factory (when
present), then sender, then paymaster (when present). -/
def phaseCalls (factory paymaster : Option Address) : List Phase :=
  (match factory with | some _ => [Phase.factory] | none => [])
  ++ [Phase.sender]
  ++ (match paymaster with | some _ => [Phase.paymaster] | none => [])

/-- The caught exception messages of the executed phases, in phase order
(each phase contributes its message even when an earlier phase threw). -/
def phaseErrors (evm : Phase → PhaseOutcome)
    (factory paymaster : Option Address) : List String :=
  (match factory with | some _ => (evm Phase.factory).err.toList | none => [])
  ++ (evm Phase.sender).err.toList
  ++ (match paymaster with | some _ => (evm Phase.paymaster).err.toList | none => [])

/-- The violations recorded across the executed phases, in phase order, each
tagged with the entity current during its phase. -/
def phaseViolations (evm : Phase → PhaseOutcome)
    (factory paymaster : Option Address) : List ValidationViolation :=
  (match factory with
    | some _ => tagEntity .FACTORY (evm Phase.factory).violations | none => [])
  ++ tagEntity .SENDER (evm Phase.sender).violations
  ++ (match paymaster with
    | some _ => tagEntity .PAYMASTER (evm Phase.paymaster).violations | none => [])

/-- Modelled from the spec: `SimulationEnvironment.simulateValidation` with
the reputation store integrated.  The revision of `simulation.ts` that holds
this code is not under `src/` — only its tests, the reputation documentation
and the RPC server refer to it; `src/unnamed/part_005` holds an earlier
revision without the reputation store.  Steps follow §4.F of the spec:
parse participants from the packed fields, reputation pre-check (on
`BANNED`/`THROTTLED` append the error and skip execution entirely, but still
run the post-update), then the factory/sender/paymaster phases in order with
`throwOnViolation = false`, each phase's exception caught and appended to
`errors` without aborting later phases, then the post-phase reputation
update, and `isValid` iff both `errors` and `violations` are empty. -/
def simulateValidationModel (rep : InMemoryReputationStore)
    (evm : Phase → PhaseOutcome) (op : DriverOp) : SimResult :=
  let factory := parseFactory op.initCode
  let paymaster := parsePaymaster op.paymasterAndData
  if (precheckErrors rep factory paymaster).isEmpty then
    { isValid := (phaseErrors evm factory paymaster).isEmpty
        && (phaseViolations evm factory paymaster).isEmpty,
      errors := phaseErrors evm factory paymaster,
      violations := phaseViolations evm factory paymaster,
      evmCalls := phaseCalls factory paymaster,
      repAfter := reputationPostUpdate rep factory paymaster
        (phaseViolations evm factory paymaster) }
  else
    { isValid := false,
      errors := precheckErrors rep factory paymaster,
      violations := [], evmCalls := [],
      repAfter := reputationPostUpdate rep factory paymaster [] }

/-! ## JavaScript values and numeric builtins

`validateUserOpStructure` takes a loosely typed record, and `gas.ts` converts
fields with `toString` / `BigInt` / `parseInt`.  We model the value kinds the
validator distinguishes: strings, integral numbers, non-integral numbers,
bigints, and other values (null / objects), the last two carrying their
string rendering.  (`nonIntNum` and `objLike` are exactly the kinds whose
`BigInt(...)` conversion throws and whose rendering is never `0x`-prefixed.) -/

inductive Jv where
  | str (s : String)
  | int (n : Int)
  | nonIntNum (render : String)
  | big (n : Int)
  | objLike (render : String)
deriving DecidableEq, Repr

/-- `value.toString()` (template-literal interpolation). -/
def jvToString : Jv → String
  | .str s => s
  | .int n => toString n
  | .nonIntNum r => r
  | .big n => toString n
  | .objLike r => r

def isDecDigitChar (c : Char) : Bool := '0' ≤ c && c ≤ '9'

/-- Digit parsing common to the literal forms of JS `BigInt(string)`: the
digit run must be non-empty and wholly of the base's digit class.  (All the
digit classes used are subsets of the hex digits, so `hexDigitVal` gives the
digit values.) -/
def bigIntDigits (base : Nat) (digitOk : Char → Bool) (d : List Char) : Option Int :=
  if !d.isEmpty && d.all digitOk then
    some ((d.foldl (fun acc c => acc * base + ((hexDigitVal c).getD 0)) 0 : Nat) : Int)
  else none

/-- JS `BigInt(string)`: trims, accepts the empty string as `0`, a
`0x`/`0X`-prefixed hex literal, a `0b`/`0o` binary/octal literal, or an
optionally signed decimal literal; everything else throws (`none`). -/
def bigIntOfString (s : String) : Option Int :=
  match trimWs s.data with
  | [] => some 0
  | '0' :: c :: rest =>
      if c = 'x' ∨ c = 'X' then bigIntDigits 16 isHexDigitChar rest
      else if c = 'b' ∨ c = 'B' then
        bigIntDigits 2 (fun ch => ch = '0' || ch = '1') rest
      else if c = 'o' ∨ c = 'O' then
        bigIntDigits 8 (fun ch => '0' ≤ ch && ch ≤ '7') rest
      else bigIntDigits 10 isDecDigitChar ('0' :: c :: rest)
  | '-' :: rest => (bigIntDigits 10 isDecDigitChar rest).map (fun v => -v)
  | '+' :: rest => bigIntDigits 10 isDecDigitChar rest
  | l => bigIntDigits 10 isDecDigitChar l

/-- Leading-sign step of JS `parseInt`. -/
def stripSign (l : List Char) : Int × List Char :=
  match l with
  | [] => (1, [])
  | c :: r => if c = '-' then (-1, r) else if c = '+' then (1, r) else (1, c :: r)

/-- `0x`/`0X` stripping step of JS `parseInt(_, 16)`. -/
def strip0x (l : List Char) : List Char :=
  match l with
  | c1 :: c2 :: r => if c1 = '0' ∧ (c2 = 'x' ∨ c2 = 'X') then r else c1 :: c2 :: r
  | _ => l

/-- JS `parseInt(s, 16)` on the character content: skip whitespace, take an
optional sign, strip an optional `0x`, then parse the longest run of hex
digits; `none` models `NaN`. -/
def parseIntHexL (l : List Char) : Option Int :=
  let l1 := l.dropWhile Char.isWhitespace
  let sl := stripSign l1
  let ds := (strip0x sl.2).takeWhile isHexDigitChar
  if ds.isEmpty then none else some (sl.1 * (hexDigitsVal ds : Int))

/-! ## Pre-verification gas (`gas.ts`) -/

def CallsBaseGas : Nat := 21000
def CallsNonZeroByteGas : Nat := 16
def CallsZeroByteGas : Nat := 4

/-- The fixed `overhead` constant of `calcPreVerificationGas`. -/
def gasOverhead : Nat := 5000

/-- A `PackedUserOperation` as the loosely typed record the validator sees:
each of the nine fields is some JavaScript value. -/
structure PackedOp where
  sender : Jv
  nonce : Jv
  initCode : Jv
  callData : Jv
  accountGasLimits : Jv
  preVerificationGas : Jv
  gasFees : Jv
  paymasterAndData : Jv
  signature : Jv
deriving DecidableEq, Repr

/-- The nine fields in the order `calcPreVerificationGas` iterates them. -/
def nineFields (op : PackedOp) : List Jv :=
  [op.sender, op.nonce, op.initCode, op.callData, op.accountGasLimits,
   op.preVerificationGas, op.gasFees, op.paymasterAndData, op.signature]

/-- `field.toString().startsWith('0x') ? field.toString().slice(2)
: BigInt(field).toString(16)`, as a character list; `none` models a thrown
conversion error. -/
def fieldHexL : Jv → Option (List Char)
  | .str s => if isHexPrefixed s then some (s.data.drop 2)
              else (bigIntOfString s).map intToHexL
  | .int n => some (intToHexL n)
  | .big n => some (intToHexL n)
  | .nonIntNum _ => none
  | .objLike _ => none

/-- `hex.length % 2 !== 0 ? '0' + hex : hex`. -/
def cleanHexL (l : List Char) : List Char :=
  if l.length % 2 ≠ 0 then '0' :: l else l

/-- The two-character substrings the byte loop of `calcPreVerificationGas`
visits (`substring(i, i + 2)` for `i = 0, 2, 4, ...`). -/
def chunkPairs : List Char → List (List Char)
  | [] => []
  | [c] => [[c]]
  | c1 :: c2 :: rest => [c1, c2] :: chunkPairs rest

/-- Cost of one byte of the loop:
`parseInt(pair, 16) === 0 ? CallsZeroByteGas : CallsNonZeroByteGas`
(`NaN === 0` is false). -/
def pairCost (pair : List Char) : Nat :=
  match parseIntHexL pair with
  | some v => if v = 0 then CallsZeroByteGas else CallsNonZeroByteGas
  | none => CallsNonZeroByteGas

/-- Total byte cost contributed by one field. -/
def fieldCost (v : Jv) : Option Nat :=
  (fieldHexL v).map (fun l => ((chunkPairs (cleanHexL l)).map pairCost).sum)

/-- `calcPreVerificationGas` from `gas.ts`: `21000 + 5000` plus the byte
costs of the nine fields; `none` models a thrown conversion error. -/
def calcPreVerificationGas (op : PackedOp) : Option Nat :=
  (nineFields op).foldlM (fun acc v => (fieldCost v).map (acc + ·))
    (CallsBaseGas + gasOverhead)

/-! ## Static structural checks (`static-checks.ts`, newest revision) -/

/-- `ValidationResult` from `types.ts`. -/
structure ValidationResult where
  isValid : Bool
  errors : List String
deriving DecidableEq, Repr

/-- `/^0x[0-9a-fA-F]*$/.test(hex) && hex.length % 2 === 0`.  (On a non-string
argument `test` coerces; no number/bigint/object rendering is `0x`-prefixed,
so those coercions never match — captured by the `Jv` wrappers below.) -/
def isValidHexString (s : String) : Bool :=
  match s.data with
  | '0' :: 'x' :: rest => rest.all isHexDigitChar && (rest.length + 2) % 2 == 0
  | _ => false

/-- `/^0x[0-9a-fA-F]+$/.test(hex)`. -/
def isValidHexNumber (s : String) : Bool :=
  match s.data with
  | '0' :: 'x' :: rest => !rest.isEmpty && rest.all isHexDigitChar
  | _ => false

/-- `isValidAddress`: a string accepted by `createAddressFromString`. -/
def isValidAddressJv : Jv → Bool
  | .str s => (parseAddr s).isSome
  | _ => false

/-- The byte-field check of step 3: `typeof value !== 'string' ||
!isValidHexString(value)` reports an error. -/
def isValidHexStringJv : Jv → Bool
  | .str s => isValidHexString s
  | _ => false

/-- `isValidBigIntOrHex`: bigints are always accepted, numbers must be
non-negative integers, strings must be hex (odd length allowed here). -/
def isValidBigIntOrHexJv (v : Jv) (allowOddLength : Bool) : Bool :=
  match v with
  | .big _ => true
  | .int n => decide (0 ≤ n)
  | .nonIntNum _ => false
  | .str s => if allowOddLength then isValidHexNumber s else isValidHexString s
  | .objLike _ => false

/-- `isValidPackedUints`: a valid hex string of exactly 66 characters. -/
def isValidPackedUintsJv : Jv → Bool
  | .str s => isValidHexString s && s.data.length == 66
  | _ => false

/-- `BigInt(value)` on a field value (`none` models a throw). -/
def jvToBigInt : Jv → Option Int
  | .str s => bigIntOfString s
  | .int n => some n
  | .big n => some n
  | .nonIntNum _ => none
  | .objLike _ => none

/-- `validateGasLimits` from `static-checks.ts`: packed-uint shape of
`accountGasLimits` and `gasFees` (the unpacked `vgl`/`cgl` are computed but
unused), then `preVerificationGas >= calcPreVerificationGas(op)`.
`none` models a thrown conversion error. -/
def validateGasLimits (op : PackedOp) : Option (List String) :=
  let e1 := if !isValidPackedUintsJv op.accountGasLimits then
      ["Invalid accountGasLimits format: " ++ jvToString op.accountGasLimits]
    else []
  let e2 := if !isValidPackedUintsJv op.gasFees then
      ["Invalid gasFees format: " ++ jvToString op.gasFees]
    else []
  match jvToBigInt op.preVerificationGas, calcPreVerificationGas op with
  | some pvg, some calculatedPvg =>
      some (e1 ++ e2 ++
        (if pvg < (calculatedPvg : Int) then
          ["preVerificationGas too low: expected at least "
            ++ toString calculatedPvg ++ ", got " ++ toString pvg]
        else []))
  | _, _ => none

/-- The loosely typed input record: each of the nine keys may be absent. -/
structure UserOpInput where
  sender : Option Jv
  nonce : Option Jv
  initCode : Option Jv
  callData : Option Jv
  accountGasLimits : Option Jv
  preVerificationGas : Option Jv
  gasFees : Option Jv
  paymasterAndData : Option Jv
  signature : Option Jv
deriving DecidableEq, Repr

/-- The `Missing field: <key>` errors in `requiredKeys` order. -/
def missingFieldErrors (u : UserOpInput) : List String :=
  (if u.sender.isNone then ["Missing field: sender"] else []) ++
  (if u.nonce.isNone then ["Missing field: nonce"] else []) ++
  (if u.initCode.isNone then ["Missing field: initCode"] else []) ++
  (if u.callData.isNone then ["Missing field: callData"] else []) ++
  (if u.accountGasLimits.isNone then ["Missing field: accountGasLimits"] else []) ++
  (if u.preVerificationGas.isNone then ["Missing field: preVerificationGas"] else []) ++
  (if u.gasFees.isNone then ["Missing field: gasFees"] else []) ++
  (if u.paymasterAndData.isNone then ["Missing field: paymasterAndData"] else []) ++
  (if u.signature.isNone then ["Missing field: signature"] else [])

/-- The hex-field error of step 3 for one byte field. -/
def hexFieldError (fieldName : String) (v : Jv) : List String :=
  if !isValidHexStringJv v then
    ["Invalid hex string for field " ++ fieldName ++ ": " ++ jvToString v]
  else []

/-- `validateUserOpStructure` from `static-checks.ts` (the revision with gas
validation): missing-field check with early return, then sender address, hex
byte fields, numeric formats, and `validateGasLimits`, accumulating errors;
`isValid` iff no error.  `none` models a thrown conversion error. -/
def validateUserOpStructure (u : UserOpInput) : Option ValidationResult :=
  match u.sender, u.nonce, u.initCode, u.callData, u.accountGasLimits,
      u.preVerificationGas, u.gasFees, u.paymasterAndData, u.signature with
  | some sender, some nonce, some initCode, some callData, some agl, some pvg,
      some gasFees, some pmd, some sig =>
      let op : PackedOp := ⟨sender, nonce, initCode, callData, agl, pvg,
        gasFees, pmd, sig⟩
      let errs :=
        (if !isValidAddressJv sender then
          ["Invalid sender address format: " ++ jvToString sender] else [])
        ++ hexFieldError "initCode" initCode
        ++ hexFieldError "callData" callData
        ++ hexFieldError "accountGasLimits" agl
        ++ hexFieldError "gasFees" gasFees
        ++ hexFieldError "paymasterAndData" pmd
        ++ hexFieldError "signature" sig
        ++ (if !isValidBigIntOrHexJv nonce true then
            ["Invalid nonce format: " ++ jvToString nonce] else [])
        ++ (if !isValidBigIntOrHexJv pvg true then
            ["Invalid preVerificationGas format: " ++ jvToString pvg] else [])
      (validateGasLimits op).map fun gasErrs =>
        { isValid := (errs ++ gasErrs).isEmpty, errors := errs ++ gasErrs }
  | _, _, _, _, _, _, _, _, _ =>
      some { isValid := false, errors := missingFieldErrors u }

/-- Whether `validateUserOpStructure` returns (rather than throws) a result
with `isValid = true`. -/
def structIsValid (u : UserOpInput) : Bool :=
  match validateUserOpStructure u with
  | some r => r.isValid
  | none => false

/-! ## Spec-side statements

The definitions below transcribe the *claims'* wording (not the source);
the refinement theorems compare them with the embeddings above. -/

/-- Claim C4's allowed-set, as the claim lists it. -/
def storageAllowedSpec (ctx : ValidationContext) (owner : Address) : Bool :=
  ctx.entity == .ENTRYPOINT || owner == ctx.entryPoint ||
  (ctx.entity == .SENDER && owner == ctx.sender) ||
  (ctx.entity == .FACTORY && (ctx.factory == some owner || owner == ctx.sender)) ||
  (ctx.entity == .PAYMASTER && ctx.paymaster == some owner)

/-- Claim C3's condition on `nonce` / `preVerificationGas` as stated:
a non-negative integer or a valid hex number. -/
def claimNumFieldOk (v : Jv) : Bool :=
  match v with
  | .int n => decide (0 ≤ n)
  | .big n => decide (0 ≤ n)
  | .str s => isValidHexNumber s
  | _ => false

/-- The amended condition: any bigint is accepted (the code never checks a
bigint's sign), otherwise as the claim states. -/
def amendedNumFieldOk (v : Jv) : Bool :=
  match v with
  | .int n => decide (0 ≤ n)
  | .big _ => true
  | .str s => isValidHexNumber s
  | _ => false

/-- A byte field of correct hex shape: `^0x[0-9a-fA-F]*$`, even hex length. -/
def byteFieldShapeOk (v : Jv) : Bool :=
  match v with
  | .str s => isValidHexString s
  | _ => false

/-- Exactly 66 characters. -/
def is66Chars (v : Jv) : Bool :=
  match v with
  | .str s => s.data.length == 66
  | _ => false

/-- `sender` parses as an address. -/
def senderParsesOk (v : Jv) : Bool :=
  match v with
  | .str s => (parseAddr s).isSome
  | _ => false

/-- The declared `preVerificationGas` is at least the computed minimum. -/
def pvgAtLeastCalc (op : PackedOp) : Bool :=
  match jvToBigInt op.preVerificationGas, calcPreVerificationGas op with
  | some pvg, some c => decide ((c : Int) ≤ pvg)
  | _, _ => false

/-- Claim C3's right-hand side, parametrised by the numeric-field condition:
all nine fields present, `sender` parses, byte fields of hex shape,
`accountGasLimits`/`gasFees` of 66 characters, numeric fields acceptable, and
`preVerificationGas` at least the computed minimum. -/
def structuralValidWith (numOk : Jv → Bool) (u : UserOpInput) : Bool :=
  match u.sender, u.nonce, u.initCode, u.callData, u.accountGasLimits,
      u.preVerificationGas, u.gasFees, u.paymasterAndData, u.signature with
  | some sender, some nonce, some initCode, some callData, some agl, some pvg,
      some gasFees, some pmd, some sig =>
      senderParsesOk sender &&
      byteFieldShapeOk initCode && byteFieldShapeOk callData &&
      byteFieldShapeOk agl && byteFieldShapeOk gasFees &&
      byteFieldShapeOk pmd && byteFieldShapeOk sig &&
      is66Chars agl && is66Chars gasFees &&
      numOk nonce && numOk pvg &&
      pvgAtLeastCalc ⟨sender, nonce, initCode, callData, agl, pvg,
        gasFees, pmd, sig⟩
  | _, _, _, _, _, _, _, _, _ => false

/-- Claim C3's right-hand side exactly as stated. -/
def claimStructuralValid (u : UserOpInput) : Bool :=
  structuralValidWith claimNumFieldOk u

/-- The amended right-hand side. -/
def amendedStructuralValid (u : UserOpInput) : Bool :=
  structuralValidWith amendedNumFieldOk u

/-- Byte values of a hex character list, two characters per byte. -/
def hexBytes (l : List Char) : List Nat :=
  (chunkPairs l).map hexDigitsVal

/-- The byte encoding of one field as claim C9 reads it: the bytes of the
hex payload of a `0x`-string (left-padded to even length), or the minimal
big-endian byte encoding of a non-negative integer. -/
def jvBytes : Jv → List Nat
  | .str s => hexBytes (cleanHexL (s.data.drop 2))
  | .int n => hexBytes (cleanHexL (natToHexList n.toNat))
  | .big n => hexBytes (cleanHexL (natToHexList n.toNat))
  | _ => []

/-- Gas of one calldata byte: 4 if zero, 16 otherwise. -/
def byteGas (b : Nat) : Nat := if b = 0 then 4 else 16

/-- Claim C9's hypothesis on a field: a valid `0x`-prefixed hex string or a
non-negative integer. -/
def c9FieldOk (v : Jv) : Bool :=
  match v with
  | .str s => isHexPrefixed s && (s.data.drop 2).all isHexDigitChar
  | .int n => decide (0 ≤ n)
  | .big n => decide (0 ≤ n)
  | _ => false

/-! ## Concrete inputs used by witnesses and counterexamples -/

/-- A sample operation for the gas estimator: a 20-byte address string, an
integral number, an odd-length hex string, a zero bigint, byte strings with
zero and non-zero bytes. -/
def c9Op : PackedOp :=
  ⟨.str "0x00000000000000000000000000000000000000ff", .int 255, .str "0xab1",
   .str "0x00ff", .str "0x1122", .str "0x5208", .str "0x", .big 0, .str "0x"⟩

/-- A context in the sender phase whose sender is `0x...1111` and whose
entry point is `0x...2222`. -/
def c5Ctx : ValidationContext := createValidationContext 0x1111 0x2222 none none false

/-- An `SLOAD` step executing in a foreign account `0x...9999` with slot 0 on
top of the stack. -/
def c5Step : Step := { opcode := 0x54, pc := 7, stack := [0], address := 0x9999 }

/-- A context and an `SSTORE` step with an empty stack, for the
empty-stack guard. -/
def c10Ctx : ValidationContext := createValidationContext 0x1111 0x2222 none none false

def c10Step : Step := { opcode := 0x55, pc := 3, stack := [], address := 0x1111 }

/-- A reputation store in which paymaster `0x...9999` is banned
(five failed updates). -/
def c1Rep : InMemoryReputationStore :=
  updateStatus (updateStatus (updateStatus (updateStatus
    (updateStatus emptyRepStore 0x9999 false) 0x9999 false) 0x9999 false)
    0x9999 false) 0x9999 false

/-- An EVM oracle whose calls are all silent no-ops. -/
def c1Evm : Phase → PhaseOutcome := fun _ => ⟨[], none⟩

/-- An operation naming the banned paymaster `0x...9999`
(20-byte address followed by the two packed 16-byte gas limits). -/
def c1Op : DriverOp :=
  ⟨"0x0000000000000000000000000000000000000000", "0x",
   addrToHex 0x9999 ++ "00000000000000000000000000000000"⟩

/-- An EVM oracle whose factory call throws. -/
def c2Evm : Phase → PhaseOutcome :=
  fun p => match p with
  | .factory => ⟨[], some "factory reverted"⟩
  | _ => ⟨[], none⟩

/-- An operation with a factory present (20-byte address plus one byte of
factory data) and no paymaster. -/
def c2Op : DriverOp :=
  ⟨"0x0000000000000000000000000000000000000000",
   "0xaaaaaaaaaaaaaaaaaaaaaaaaaaaaaaaaaaaaaaaa12", "0x"⟩

/-- An input accepted by the structural validator although its `nonce` is the
*negative* bigint `-1n`: every other field is well-formed and the declared
`preVerificationGas` (`0xffffff`) exceeds the computed minimum. -/
def c3Cex : UserOpInput :=
  { sender := some (.str "0x0000000000000000000000000000000000000000"),
    nonce := some (.big (-1)),
    initCode := some (.str "0x"), callData := some (.str "0x"),
    accountGasLimits := some
      (.str "0x0000000000000000000000000000000000000000000000000000000000000000"),
    preVerificationGas := some (.str "0xffffff"),
    gasFees := some
      (.str "0x0000000000000000000000000000000000000000000000000000000000000000"),
    paymasterAndData := some (.str "0x"), signature := some (.str "0x") }

/-! # Theorems -/

/-! ## Character-class and parsing lemmas -/

theorem isHexDigitChar_not_ws {c : Char} (h : isHexDigitChar c = true) :
    c.isWhitespace = false := by
  by_cases h1 : c = ' '
  · subst h1; exact absurd h (by decide)
  by_cases h2 : c = '\t'
  · subst h2; exact absurd h (by decide)
  by_cases h3 : c = '\r'
  · subst h3; exact absurd h (by decide)
  by_cases h4 : c = '\n'
  · subst h4; exact absurd h (by decide)
  simp [Char.isWhitespace, h1, h2, h3, h4]

theorem isHexDigitChar_ne {c : Char} (h : isHexDigitChar c = true) :
    c ≠ '-' ∧ c ≠ '+' ∧ c ≠ 'x' ∧ c ≠ 'X' := by
  refine ⟨?_, ?_, ?_, ?_⟩ <;> rintro rfl <;> exact absurd h (by decide)

theorem dropWhile_ws_of_hex {l : List Char} (h : l.all isHexDigitChar = true) :
    l.dropWhile Char.isWhitespace = l := by
  cases l with
  | nil => rfl
  | cons c r =>
      rw [List.all_cons, Bool.and_eq_true] at h
      rw [List.dropWhile_cons, isHexDigitChar_not_ws h.1]
      simp

theorem takeWhile_hex_self {l : List Char} (h : l.all isHexDigitChar = true) :
    l.takeWhile isHexDigitChar = l := by
  refine List.takeWhile_eq_self_iff.mpr ?_
  intro a ha
  exact List.all_eq_true.mp h a ha

/-- `parseInt(_, 16)` of a non-empty all-hex-digit string is its hex value. -/
theorem parseIntHexL_hexDigits {l : List Char} (hne : l ≠ [])
    (h : l.all isHexDigitChar = true) :
    parseIntHexL l = some (hexDigitsVal l) := by
  simp only [parseIntHexL]
  rw [dropWhile_ws_of_hex h]
  cases l with
  | nil => exact absurd rfl hne
  | cons c r =>
      rw [List.all_cons, Bool.and_eq_true] at h
      have hc := isHexDigitChar_ne h.1
      rw [show stripSign (c :: r) = (1, c :: r) by
        simp [stripSign, hc.1, hc.2.1]]
      cases r with
      | nil =>
          rw [show strip0x [c] = [c] from rfl]
          rw [takeWhile_hex_self (by simp [h.1])]
          simp
      | cons c2 r2 =>
          rw [List.all_cons, Bool.and_eq_true] at h
          have hc2 := isHexDigitChar_ne h.2.1
          rw [show strip0x (c :: c2 :: r2) = c :: c2 :: r2 by
            simp [strip0x, hc2.2.2.1, hc2.2.2.2]]
          rw [takeWhile_hex_self (by simp [h.1, h.2.1, h.2.2])]
          simp

theorem chunkPairs_mem_hex {l : List Char} (h : l.all isHexDigitChar = true) :
    ∀ p ∈ chunkPairs l, p ≠ [] ∧ p.all isHexDigitChar = true := by
  induction l using chunkPairs.induct with
  | case1 => simp [chunkPairs]
  | case2 c =>
      intro p hp
      simp only [chunkPairs, List.mem_singleton] at hp
      subst hp
      simp_all [chunkPairs]
  | case3 c1 c2 rest ih =>
      intro p hp
      simp only [List.all_cons, Bool.and_eq_true] at h
      simp only [chunkPairs, List.mem_cons] at hp
      rcases hp with rfl | hp
      · simp [h.1, h.2.1]
      · exact ih h.2.2 p hp

theorem pairCost_eq_byteGas {p : List Char} (hne : p ≠ [])
    (h : p.all isHexDigitChar = true) :
    pairCost p = byteGas (hexDigitsVal p) := by
  unfold pairCost byteGas
  rw [parseIntHexL_hexDigits hne h]
  simp [CallsZeroByteGas, CallsNonZeroByteGas]

theorem costList_eq_byteGas {l : List Char} (h : l.all isHexDigitChar = true) :
    (chunkPairs l).map pairCost = (hexBytes l).map byteGas := by
  unfold hexBytes
  rw [List.map_map]
  refine List.map_congr_left ?_
  intro p hp
  obtain ⟨hne, hall⟩ := chunkPairs_mem_hex h p hp
  exact pairCost_eq_byteGas hne hall

theorem hexDigitChar_is_hex {d : Nat} (h : d < 16) :
    isHexDigitChar (hexDigitChar d) = true := by
  interval_cases d <;> decide

theorem natToHexCore_all_hex (fuel n : Nat) :
    (natToHexCore fuel n).all isHexDigitChar = true := by
  induction fuel generalizing n with
  | zero => rfl
  | succ fuel ih =>
      rw [natToHexCore]
      split
      · next h => simp [hexDigitChar_is_hex h]
      · simp only [List.all_append, ih, Bool.true_and, List.all_cons,
          List.all_nil]
        simp [hexDigitChar_is_hex (Nat.mod_lt n (by omega))]

theorem natToHexList_all_hex (n : Nat) :
    (natToHexList n).all isHexDigitChar = true :=
  natToHexCore_all_hex (n + 1) n

theorem cleanHexL_all_hex {l : List Char} (h : l.all isHexDigitChar = true) :
    (cleanHexL l).all isHexDigitChar = true := by
  unfold cleanHexL
  split
  · simp [h]; decide
  · exact h

/-! ## C9: the gas estimator computes the byte-cost formula -/

theorem fieldCost_eq_of_c9 {v : Jv} (h : c9FieldOk v = true) :
    fieldCost v = some (((jvBytes v).map byteGas).sum) := by
  cases v with
  | str s =>
      simp only [c9FieldOk, Bool.and_eq_true] at h
      simp only [fieldCost, fieldHexL, h.1, if_pos, jvBytes, Option.map_some']
      rw [costList_eq_byteGas (cleanHexL_all_hex h.2)]
  | int n =>
      simp only [c9FieldOk, decide_eq_true_eq] at h
      simp only [fieldCost, fieldHexL, jvBytes, Option.map_some', intToHexL,
        if_neg (by omega : ¬n < 0)]
      rw [costList_eq_byteGas (cleanHexL_all_hex (natToHexList_all_hex _))]
  | big n =>
      simp only [c9FieldOk, decide_eq_true_eq] at h
      simp only [fieldCost, fieldHexL, jvBytes, Option.map_some', intToHexL,
        if_neg (by omega : ¬n < 0)]
      rw [costList_eq_byteGas (cleanHexL_all_hex (natToHexList_all_hex _))]
  | nonIntNum r => exact absurd h (by simp [c9FieldOk])
  | objLike r => exact absurd h (by simp [c9FieldOk])

theorem foldCost_eq (fs : List Jv) (base : Nat)
    (h : ∀ v ∈ fs, c9FieldOk v = true) :
    fs.foldlM (fun acc v => (fieldCost v).map (acc + ·)) base
      = some (base + ((fs.flatMap jvBytes).map byteGas).sum) := by
  induction fs generalizing base with
  | nil => simp
  | cons v rest ih =>
      rw [List.foldlM_cons, fieldCost_eq_of_c9 (h v (by simp))]
      simp only [Option.map_some', Option.bind_eq_bind, Option.some_bind]
      rw [ih _ (fun w hw => h w (by simp [hw]))]
      simp only [List.flatMap_cons, List.map_append, List.sum_append]
      congr 1
      omega

/-- C9: for an operation whose nine fields are valid `0x`-prefixed hex
strings or non-negative integers, `calcPreVerificationGas` returns
`21000 + 5000` plus, for each byte of the concatenated byte encodings of the
nine fields, 4 for a zero byte and 16 otherwise. -/
theorem calcPreVerificationGas_byte_formula (op : PackedOp)
    (h : ∀ v ∈ nineFields op, c9FieldOk v = true) :
    calcPreVerificationGas op
      = some (21000 + 5000 + (((nineFields op).flatMap jvBytes).map byteGas).sum) := by
  unfold calcPreVerificationGas
  rw [foldCost_eq _ _ h]
  rfl

/-- Witness for C9 at a concrete operation. -/
theorem calcPreVerificationGas_byte_formula_witness :
    (∀ v ∈ nineFields c9Op, c9FieldOk v = true) ∧
    calcPreVerificationGas c9Op
      = some (21000 + 5000 + (((nineFields c9Op).flatMap jvBytes).map byteGas).sum) :=
  ⟨by decide, calcPreVerificationGas_byte_formula c9Op (by decide)⟩

/-! ## C4: the storage rule engine -/

/-- The full behaviour of `checkStorageAccess`: `none` exactly on the
allowed-set, otherwise the denial record whose message names the entity, the
slot, and the owner. -/
theorem checkStorageAccess_eq (ctx : ValidationContext) (owner : Address)
    (slot : String) (pc : Nat) :
    checkStorageAccess ctx owner slot pc =
      if storageAllowedSpec ctx owner = true then none
      else some
        { vtype := .ILLEGAL_STORAGE_ACCESS, entity := ctx.entity,
          message := "Illegal storage access: " ++ ctx.entity.name
            ++ " accessing slot " ++ slot ++ " of " ++ addrToHex owner,
          pc := pc, storageAddress := none, slot := none } := by
  by_cases h1 : owner = ctx.entryPoint
  · simp [checkStorageAccess, storageAllowedSpec, h1]
  · cases hent : ctx.entity with
    | SENDER =>
        by_cases h2 : owner = ctx.sender <;>
          simp [checkStorageAccess, storageAllowedSpec, storageDenialViolation,
            hent, h1, h2]
    | FACTORY =>
        by_cases h2 : ctx.factory = some owner <;>
          by_cases h3 : owner = ctx.sender <;>
          simp [checkStorageAccess, storageAllowedSpec, storageDenialViolation,
            hent, h1, h2, h3]
    | PAYMASTER =>
        by_cases h2 : ctx.paymaster = some owner <;>
          simp [checkStorageAccess, storageAllowedSpec, storageDenialViolation,
            hent, h1, h2]
    | ENTRYPOINT =>
        simp [checkStorageAccess, storageAllowedSpec, hent, h1]

/-- C4: the storage rule engine allows the access exactly when the entity is
EntryPoint, or the owner is the entry point, or the entity accesses its own
storage (with the factory also allowed the sender's storage); every other
access is denied with a record whose message names the entity, the slot and
the owner (and the engine, a pure function, leaves the context unchanged). -/
theorem storage_rules_allowed_iff (ctx : ValidationContext) (owner : Address)
    (slot : String) (pc : Nat) :
    checkStorageAccess ctx owner slot pc =
      if storageAllowedSpec ctx owner = true then none
      else some
        { vtype := .ILLEGAL_STORAGE_ACCESS, entity := ctx.entity,
          message := "Illegal storage access: " ++ ctx.entity.name
            ++ " accessing slot " ++ slot ++ " of " ++ addrToHex owner,
          pc := pc, storageAddress := none, slot := none } :=
  checkStorageAccess_eq ctx owner slot pc

/-! ## Step-handler decomposition lemmas -/

theorem checkStorageAccess_vtype {ctx : ValidationContext} {owner : Address}
    {slot : String} {pc : Nat} {v : ValidationViolation}
    (h : checkStorageAccess ctx owner slot pc = some v) :
    v.vtype = .ILLEGAL_STORAGE_ACCESS := by
  rw [checkStorageAccess_eq] at h
  split at h
  · cases h
  · cases h; rfl

/-- The storage check leaves untouched every violation class other than
`ILLEGAL_STORAGE_ACCESS`. -/
theorem storageStep_filter (ctx : ValidationContext) (s : Step)
    (p : ValidationViolation → Bool)
    (hp : ∀ v, v.vtype = .ILLEGAL_STORAGE_ACCESS → p v = false) :
    (storageStep ctx s).1.violations.filter p = ctx.violations.filter p := by
  unfold storageStep
  split
  · cases hl : s.stack.getLast? with
    | none => simp
    | some key =>
        simp only
        cases hc : checkStorageAccess ctx s.address
            ("0x" ++ padStart (natToHex key) 64 '0') s.pc with
        | none => simp
        | some v =>
            have hv := hp v (checkStorageAccess_vtype hc)
            cases ht : ctx.throwOnViolation <;>
              simp [pushViolation, ht, List.filter_append, hv]
  · rfl

/-- The creation check leaves untouched every violation class other than
`ENTITY_RESTRICTION` and `ILLEGAL_STORAGE_ACCESS`. -/
theorem createStep_filter (ctx : ValidationContext) (s : Step)
    (p : ValidationViolation → Bool)
    (hp1 : ∀ v, v.vtype = .ILLEGAL_STORAGE_ACCESS → p v = false)
    (hp2 : ∀ v, v.vtype = .ENTITY_RESTRICTION → p v = false) :
    (createStep ctx s).1.violations.filter p = ctx.violations.filter p := by
  unfold createStep
  split
  · have hcv := hp2 (createViolation ctx s) rfl
    cases ht : ctx.throwOnViolation with
    | true => simp [pushViolation, ht, List.filter_append, hcv]
    | false =>
        have hth : (pushViolation ctx (createViolation ctx s)).throwOnViolation
            = false := ht
        simp only [ht, hth, Bool.false_eq_true, if_false]
        rw [storageStep_filter _ _ p hp1]
        simp [pushViolation, List.filter_append, hcv]
  · exact storageStep_filter ctx s p hp1

/-! ## C6: banned opcodes -/

theorem mem_bannedOpcodes_iff (x : Nat) :
    bannedOpcodes.contains x = true
      ↔ x ∈ [0x3a, 0x40, 0x41, 0x42, 0x43, 0x44, 0x45, 0x47, 0x48] := by
  simp [bannedOpcodes]
  omega

/-- C6: at every executed instruction, a `BANNED_OPCODE` violation whose
message cites the opcode's stable name and the current entity is appended
exactly when the opcode is one of the nine banned values, whatever the
entity. -/
theorem stepHandler_banned_iff (ctx : ValidationContext) (s : Step) :
    (stepHandler ctx s).1.violations.filter
        (fun v => v.vtype == ViolationType.BANNED_OPCODE)
      = ctx.violations.filter (fun v => v.vtype == ViolationType.BANNED_OPCODE)
        ++ (if s.opcode ∈ [0x3a, 0x40, 0x41, 0x42, 0x43, 0x44, 0x45, 0x47, 0x48]
          then
            [{ vtype := .BANNED_OPCODE, entity := ctx.entity,
               message := "Opcode " ++ opcodeName s.opcode
                 ++ " is banned during validation (entity: "
                 ++ ctx.entity.name ++ ")",
               pc := s.pc, storageAddress := none, slot := none }]
          else []) := by
  by_cases hb : bannedOpcodes.contains s.opcode = true
  · have hmem := (mem_bannedOpcodes_iff s.opcode).mp hb
    rw [if_pos hmem]
    have hlist : s.opcode = 0x3a ∨ s.opcode = 0x40 ∨ s.opcode = 0x41 ∨
        s.opcode = 0x42 ∨ s.opcode = 0x43 ∨ s.opcode = 0x44 ∨
        s.opcode = 0x45 ∨ s.opcode = 0x47 ∨ s.opcode = 0x48 := by
      simpa using hmem
    have hnotc : ¬((s.opcode = 0xf0 ∨ s.opcode = 0xf5)
        ∧ (pushViolation ctx (bannedViolation ctx s)).entity ≠ .FACTORY) := by
      rintro ⟨hf | hf, _⟩ <;> omega
    have hnots : ¬(s.opcode = 0x54 ∨ s.opcode = 0x55) := by
      rintro (hf | hf) <;> omega
    simp only [stepHandler, hb, if_true]
    cases ht : ctx.throwOnViolation with
    | true =>
        have hth : (pushViolation ctx (bannedViolation ctx s)).throwOnViolation
            = true := ht
        simp [ht, hth, pushViolation, List.filter_append, bannedViolation]
    | false =>
        have hth : (pushViolation ctx (bannedViolation ctx s)).throwOnViolation
            = false := ht
        simp only [ht, hth, Bool.false_eq_true, if_false]
        rw [show createStep (pushViolation ctx (bannedViolation ctx s)) s
            = storageStep (pushViolation ctx (bannedViolation ctx s)) s by
          unfold createStep; rw [if_neg hnotc]]
        rw [storageStep_filter _ _ _ (fun v hv => by simp [hv])]
        simp [pushViolation, List.filter_append, bannedViolation]
  · rw [if_neg (fun hmem => hb ((mem_bannedOpcodes_iff s.opcode).mpr hmem))]
    simp only [stepHandler, hb, Bool.false_eq_true, if_false]
    rw [createStep_filter _ _ _ (fun v hv => by simp [hv]) (fun v hv => by simp [hv])]
    simp

/-! ## C7: CREATE / CREATE2 restriction -/

/-- C7: at every executed `CREATE`/`CREATE2` instruction an
`ENTITY_RESTRICTION` violation is recorded exactly when the current entity is
not the factory. -/
theorem stepHandler_create_iff (ctx : ValidationContext) (s : Step) :
    (stepHandler ctx s).1.violations.filter
        (fun v => v.vtype == ViolationType.ENTITY_RESTRICTION)
      = ctx.violations.filter (fun v => v.vtype == ViolationType.ENTITY_RESTRICTION)
        ++ (if (s.opcode = 0xf0 ∨ s.opcode = 0xf5) ∧ ctx.entity ≠ .FACTORY then
            [{ vtype := .ENTITY_RESTRICTION, entity := ctx.entity,
               message := "CREATE/CREATE2 only allowed for Factory entity, current: "
                 ++ ctx.entity.name,
               pc := s.pc, storageAddress := none, slot := none }]
          else []) := by
  by_cases hc : (s.opcode = 0xf0 ∨ s.opcode = 0xf5) ∧ ctx.entity ≠ .FACTORY
  · rw [if_pos hc]
    have hb : bannedOpcodes.contains s.opcode = false := by
      rcases hc.1 with hf | hf <;> rw [hf] <;> decide
    have hnots : ¬(s.opcode = 0x54 ∨ s.opcode = 0x55) := by
      rcases hc.1 with hf | hf <;> rintro (hg | hg) <;> omega
    simp only [stepHandler, hb, Bool.false_eq_true, if_false]
    unfold createStep
    rw [if_pos hc]
    cases ht : ctx.throwOnViolation with
    | true =>
        have hth : (pushViolation ctx (createViolation ctx s)).throwOnViolation
            = true := ht
        simp [ht, hth, pushViolation, List.filter_append, createViolation]
    | false =>
        have hth : (pushViolation ctx (createViolation ctx s)).throwOnViolation
            = false := ht
        simp only [ht, hth, Bool.false_eq_true, if_false]
        rw [storageStep_filter _ _ _ (fun v hv => by simp [hv])]
        simp [pushViolation, List.filter_append, createViolation]
  · rw [if_neg hc]
    by_cases hb : bannedOpcodes.contains s.opcode = true
    · simp only [stepHandler, hb, if_true]
      have hc1 : ¬((s.opcode = 0xf0 ∨ s.opcode = 0xf5)
          ∧ (pushViolation ctx (bannedViolation ctx s)).entity ≠ .FACTORY) := by
        intro hx
        exact hc ⟨hx.1, hx.2⟩
      cases ht : ctx.throwOnViolation with
      | true =>
          have hth : (pushViolation ctx (bannedViolation ctx s)).throwOnViolation
              = true := ht
          simp [ht, hth, pushViolation, List.filter_append, bannedViolation]
      | false =>
          have hth : (pushViolation ctx (bannedViolation ctx s)).throwOnViolation
              = false := ht
          simp only [ht, hth, Bool.false_eq_true, if_false]
          rw [show createStep (pushViolation ctx (bannedViolation ctx s)) s
              = storageStep (pushViolation ctx (bannedViolation ctx s)) s by
            unfold createStep; rw [if_neg hc1]]
          rw [storageStep_filter _ _ _ (fun v hv => by simp [hv])]
          simp [pushViolation, List.filter_append, bannedViolation]
    · simp only [stepHandler, hb, Bool.false_eq_true, if_false]
      rw [show createStep ctx s = storageStep ctx s by
        unfold createStep; rw [if_neg hc]]
      rw [storageStep_filter _ _ _ (fun v hv => by simp [hv])]
      simp

/-! ## C10: the empty-stack guard of the storage check -/

/-- C10: an `SLOAD`/`SSTORE` step with an empty stack performs no storage
check at all — the context is returned unchanged, nothing is recorded and
nothing is thrown (the top of the stack is only read under the
non-empty-stack guard). -/
theorem stepHandler_empty_stack (ctx : ValidationContext) (s : Step)
    (h1 : s.stack = []) (h2 : s.opcode = 0x54 ∨ s.opcode = 0x55) :
    stepHandler ctx s = (ctx, none) := by
  have hb : bannedOpcodes.contains s.opcode = false := by
    rcases h2 with h | h <;> rw [h] <;> decide
  have hc : ¬((s.opcode = 0xf0 ∨ s.opcode = 0xf5) ∧ ctx.entity ≠ .FACTORY) := by
    rintro ⟨hf | hf, _⟩ <;> rcases h2 with h | h <;> omega
  simp only [stepHandler, hb, Bool.false_eq_true, if_false]
  unfold createStep
  rw [if_neg hc]
  unfold storageStep
  rw [if_pos h2, h1]
  rfl

/-- Witness for C10 at a concrete step. -/
theorem stepHandler_empty_stack_witness :
    stepHandler c10Ctx c10Step = (c10Ctx, none) :=
  stepHandler_empty_stack c10Ctx c10Step rfl (Or.inr rfl)

/-! ## C5: the recorded storage violation -/

/-- C5 counterexample: on a denied `SLOAD` the recorded violation does not
carry the owner and the slot as structured fields — both `storageAddress` and
`slot` are unset (`none`), while the claim requires them to equal the
executing account's address and the 32-byte slot hex. -/
theorem storage_violation_fields_counterexample :
    ((stepHandler c5Ctx c5Step).1.violations.map
        (fun v => (v.vtype, v.storageAddress, v.slot)))
      = [(ViolationType.ILLEGAL_STORAGE_ACCESS, none, none)] ∧
    some (addrToHex c5Step.address) ≠ (none : Option String) ∧
    some ("0x" ++ padStart (natToHex 0) 64 '0') ≠ (none : Option String) := by
  refine ⟨by decide, by simp, by simp⟩

/-- C5 (amended): on a denied `SLOAD`/`SSTORE` with a non-empty stack, the
recorded violation has kind `ILLEGAL_STORAGE_ACCESS`, the current entity, the
step's pc, and a message naming the executing account and the top stack
element as 32-byte zero-padded hex; the structured `storageAddress`/`slot`
fields are left unset. -/
theorem stepHandler_storage_violation (ctx : ValidationContext) (s : Step)
    (key : Nat) (h1 : s.opcode = 0x54 ∨ s.opcode = 0x55)
    (h2 : s.stack.getLast? = some key)
    (h3 : storageAllowedSpec ctx s.address = false) :
    (stepHandler ctx s).1.violations = ctx.violations ++
      [{ vtype := .ILLEGAL_STORAGE_ACCESS, entity := ctx.entity,
         message := "Illegal storage access: " ++ ctx.entity.name
           ++ " accessing slot " ++ ("0x" ++ padStart (natToHex key) 64 '0')
           ++ " of " ++ addrToHex s.address,
         pc := s.pc, storageAddress := none, slot := none }] := by
  have hb : bannedOpcodes.contains s.opcode = false := by
    rcases h1 with h | h <;> rw [h] <;> decide
  have hc : ¬((s.opcode = 0xf0 ∨ s.opcode = 0xf5) ∧ ctx.entity ≠ .FACTORY) := by
    rintro ⟨hf | hf, _⟩ <;> rcases h1 with h | h <;> omega
  simp only [stepHandler, hb, Bool.false_eq_true, if_false]
  unfold createStep
  rw [if_neg hc]
  unfold storageStep
  rw [if_pos h1, h2]
  simp only
  rw [checkStorageAccess_eq]
  rw [if_neg (by simp [h3])]
  cases ht : ctx.throwOnViolation with
  | true => simp [pushViolation, ht]
  | false => simp [pushViolation, ht]

/-- Witness for the amended C5 at a concrete denied `SLOAD`. -/
theorem stepHandler_storage_violation_witness :
    (stepHandler c5Ctx c5Step).1.violations = c5Ctx.violations ++
      [{ vtype := .ILLEGAL_STORAGE_ACCESS, entity := c5Ctx.entity,
         message := "Illegal storage access: " ++ c5Ctx.entity.name
           ++ " accessing slot " ++ ("0x" ++ padStart (natToHex 0) 64 '0')
           ++ " of " ++ addrToHex c5Step.address,
         pc := c5Step.pc, storageAddress := none, slot := none }] :=
  stepHandler_storage_violation c5Ctx c5Step 0 (Or.inl rfl) rfl (by decide)

/-! ## C8: the reputation store -/

theorem repOpsSeen_update (st : InMemoryReputationStore) (a : Address) (b : Bool) :
    repOpsSeen (updateStatus st a b) a = repOpsSeen st a + 1 := by
  unfold repOpsSeen getEntry updateStatus
  cases hge : st.store (addrToHex a) <;> simp [hge]

theorem repOpsFailed_update (st : InMemoryReputationStore) (a : Address) (b : Bool) :
    repOpsFailed (updateStatus st a b) a
      = repOpsFailed st a + (if b then 0 else 1) := by
  unfold repOpsFailed getEntry updateStatus
  cases hge : st.store (addrToHex a) <;> simp [hge]

theorem getStatus_update (st : InMemoryReputationStore) (a : Address) (b : Bool) :
    getStatus (updateStatus st a b) a
      = statusFromFailures (repOpsFailed st a + (if b then 0 else 1)) := by
  unfold getStatus repOpsFailed getEntry updateStatus
  cases hge : st.store (addrToHex a) <;> simp [hge]

theorem applyUpdates_spec (a : Address) (updates : List Bool) :
    ∀ st : InMemoryReputationStore,
    repOpsSeen (applyUpdates st a updates) a = repOpsSeen st a + updates.length ∧
    repOpsFailed (applyUpdates st a updates) a
      = repOpsFailed st a + updates.count false ∧
    (updates ≠ [] → getStatus (applyUpdates st a updates) a
      = statusFromFailures (repOpsFailed st a + updates.count false)) := by
  induction updates with
  | nil => intro st; simp [applyUpdates]
  | cons b rest ih =>
      intro st
      have hstep : applyUpdates st a (b :: rest)
          = applyUpdates (updateStatus st a b) a rest := rfl
      have h := ih (updateStatus st a b)
      have hcount : (b :: rest).count false
          = rest.count false + (if b then 0 else 1) := by
        rw [List.count_cons]
        cases b <;> simp
      refine ⟨?_, ?_, ?_⟩
      · rw [hstep, h.1, repOpsSeen_update]
        simp [List.length_cons]
        omega
      · rw [hstep, h.2.1, repOpsFailed_update, hcount]
        omega
      · intro _
        by_cases hr : rest = []
        · subst hr
          rw [hstep]
          show getStatus (updateStatus st a b) a = _
          rw [getStatus_update, hcount]
          simp
        · rw [hstep, h.2.2 hr, repOpsFailed_update, hcount]
          congr 1
          omega

/-- C8: starting from a fresh store, after any finite sequence of updates for
an address, `opsSeen` is the number of updates, `opsFailed` the number of
unsuccessful ones, and the status is BANNED at 5 or more failures, THROTTLED
at 2 or more, OK otherwise; an address never updated reports OK. -/
theorem reputation_counters_and_status (a : Address) (updates : List Bool) :
    repOpsSeen (applyUpdates emptyRepStore a updates) a = updates.length ∧
    repOpsFailed (applyUpdates emptyRepStore a updates) a = updates.count false ∧
    getStatus (applyUpdates emptyRepStore a updates) a
      = (if 5 ≤ updates.count false then ReputationStatus.BANNED
         else if 2 ≤ updates.count false then ReputationStatus.THROTTLED
         else ReputationStatus.OK) ∧
    getStatus emptyRepStore a = ReputationStatus.OK := by
  have h := applyUpdates_spec a updates emptyRepStore
  have h0seen : repOpsSeen emptyRepStore a = 0 := rfl
  have h0failed : repOpsFailed emptyRepStore a = 0 := rfl
  refine ⟨by rw [h.1, h0seen, Nat.zero_add], by rw [h.2.1, h0failed, Nat.zero_add],
    ?_, rfl⟩
  cases hup : updates with
  | nil =>
      show getStatus emptyRepStore a = _
      simp [getStatus, emptyRepStore]
  | cons b rest =>
      rw [← hup, h.2.2 (by simp [hup]), h0failed, Nat.zero_add]
      simp [statusFromFailures, MAX_FAILURES_ALLOWED, THROTTLE_THRESHOLD, ge_iff_le]

/-! ## C1: the reputation pre-check skips execution -/

theorem isSuffix_append_right {α : Type} {l b : List α} (a : List α)
    (h : l <:+ b) : l <:+ a ++ b := by
  obtain ⟨t, rfl⟩ := h
  exact ⟨a ++ t, by rw [List.append_assoc]⟩

/-- C1 (spec-modelled driver): when the parsed factory or paymaster is BANNED
or THROTTLED, the result carries a matching `is BANNED` / `is THROTTLED`
error, `isValid` is false, no violation is recorded, no EVM call is issued
for any phase, and the post-phase reputation update still runs. -/
theorem precheck_ban_skips_execution (rep : InMemoryReputationStore)
    (evm : Phase → PhaseOutcome) (op : DriverOp) (a : Address)
    (hpres : parseFactory op.initCode = some a
      ∨ parsePaymaster op.paymasterAndData = some a)
    (hbad : getStatus rep a = .BANNED ∨ getStatus rep a = .THROTTLED) :
    (∃ e ∈ (simulateValidationModel rep evm op).errors,
        ("is " ++ (getStatus rep a).text).data <:+: e.data) ∧
    (simulateValidationModel rep evm op).isValid = false ∧
    (simulateValidationModel rep evm op).violations = [] ∧
    (simulateValidationModel rep evm op).evmCalls = [] ∧
    (simulateValidationModel rep evm op).repAfter
      = reputationPostUpdate rep (parseFactory op.initCode)
          (parsePaymaster op.paymasterAndData) [] := by
  have key : ∃ e ∈ precheckErrors rep (parseFactory op.initCode)
      (parsePaymaster op.paymasterAndData),
      ("is " ++ (getStatus rep a).text).data <:+: e.data := by
    rcases hpres with hf | hp
    · rcases hbad with hs | hs
      · have hcomp : precheckEntity rep "factory" a
            = ["factory" ++ " " ++ addrToHex a ++ " is BANNED"] := by
          unfold precheckEntity; rw [hs]
        refine ⟨"factory" ++ " " ++ addrToHex a ++ " is BANNED", ?_, ?_⟩
        · simp only [precheckErrors, hf, hcomp]
          exact List.mem_append_left _ (by simp)
        · refine List.IsSuffix.isInfix ?_
          rw [hs]
          rw [String.data_append, String.data_append, String.data_append,
            String.data_append]
          apply isSuffix_append_right
          decide
      · have hcomp : precheckEntity rep "factory" a
            = ["factory" ++ " " ++ addrToHex a ++ " is THROTTLED"] := by
          unfold precheckEntity; rw [hs]
        refine ⟨"factory" ++ " " ++ addrToHex a ++ " is THROTTLED", ?_, ?_⟩
        · simp only [precheckErrors, hf, hcomp]
          exact List.mem_append_left _ (by simp)
        · refine List.IsSuffix.isInfix ?_
          rw [hs]
          rw [String.data_append, String.data_append, String.data_append,
            String.data_append]
          apply isSuffix_append_right
          decide
    · rcases hbad with hs | hs
      · have hcomp : precheckEntity rep "paymaster" a
            = ["paymaster" ++ " " ++ addrToHex a ++ " is BANNED"] := by
          unfold precheckEntity; rw [hs]
        refine ⟨"paymaster" ++ " " ++ addrToHex a ++ " is BANNED", ?_, ?_⟩
        · simp only [precheckErrors, hp, hcomp]
          exact List.mem_append_right _ (by simp)
        · refine List.IsSuffix.isInfix ?_
          rw [hs]
          rw [String.data_append, String.data_append, String.data_append,
            String.data_append]
          apply isSuffix_append_right
          decide
      · have hcomp : precheckEntity rep "paymaster" a
            = ["paymaster" ++ " " ++ addrToHex a ++ " is THROTTLED"] := by
          unfold precheckEntity; rw [hs]
        refine ⟨"paymaster" ++ " " ++ addrToHex a ++ " is THROTTLED", ?_, ?_⟩
        · simp only [precheckErrors, hp, hcomp]
          exact List.mem_append_right _ (by simp)
        · refine List.IsSuffix.isInfix ?_
          rw [hs]
          rw [String.data_append, String.data_append, String.data_append,
            String.data_append]
          apply isSuffix_append_right
          decide
  obtain ⟨e, hmem, hsfx⟩ := key
  have hne : precheckErrors rep (parseFactory op.initCode)
      (parsePaymaster op.paymasterAndData) ≠ [] := List.ne_nil_of_mem hmem
  have hpre : (precheckErrors rep (parseFactory op.initCode)
      (parsePaymaster op.paymasterAndData)).isEmpty = false := by
    cases hq : precheckErrors rep (parseFactory op.initCode)
        (parsePaymaster op.paymasterAndData) with
    | nil => exact absurd hq hne
    | cons x xs => rfl
  have hr : simulateValidationModel rep evm op
      = { isValid := false,
          errors := precheckErrors rep (parseFactory op.initCode)
            (parsePaymaster op.paymasterAndData),
          violations := [], evmCalls := [],
          repAfter := reputationPostUpdate rep (parseFactory op.initCode)
            (parsePaymaster op.paymasterAndData) [] } := by
    unfold simulateValidationModel
    simp only [hpre, Bool.false_eq_true, if_false]
  rw [hr]
  exact ⟨⟨e, hmem, hsfx⟩, rfl, rfl, rfl, rfl⟩

/-- Witness for C1: a banned paymaster at a concrete store and operation. -/
theorem precheck_ban_skips_execution_witness :
    (parseFactory c1Op.initCode = some 0x9999
      ∨ parsePaymaster c1Op.paymasterAndData = some 0x9999) ∧
    (getStatus c1Rep 0x9999 = .BANNED ∨ getStatus c1Rep 0x9999 = .THROTTLED) ∧
    ((∃ e ∈ (simulateValidationModel c1Rep c1Evm c1Op).errors,
        ("is " ++ (getStatus c1Rep 0x9999).text).data <:+: e.data) ∧
     (simulateValidationModel c1Rep c1Evm c1Op).isValid = false ∧
     (simulateValidationModel c1Rep c1Evm c1Op).violations = [] ∧
     (simulateValidationModel c1Rep c1Evm c1Op).evmCalls = [] ∧
     (simulateValidationModel c1Rep c1Evm c1Op).repAfter
       = reputationPostUpdate c1Rep (parseFactory c1Op.initCode)
           (parsePaymaster c1Op.paymasterAndData) []) :=
  ⟨Or.inr (by decide), Or.inl (by decide),
   precheck_ban_skips_execution c1Rep c1Evm c1Op 0x9999
     (Or.inr (by decide)) (Or.inl (by decide))⟩

/-! ## C2: a phase exception does not abort later phases -/

/-- C2 (spec-modelled driver): when the pre-check passes, every due phase
issues its EVM call in order regardless of earlier exceptions, and the
message of a throwing earlier phase (factory, sender) is appended to the
result's errors. -/
theorem phase_error_continues (rep : InMemoryReputationStore)
    (evm : Phase → PhaseOutcome) (op : DriverOp)
    (hpre : precheckErrors rep (parseFactory op.initCode)
      (parsePaymaster op.paymasterAndData) = []) :
    (simulateValidationModel rep evm op).evmCalls
      = (match parseFactory op.initCode with
          | some _ => [Phase.factory] | none => [])
        ++ [Phase.sender]
        ++ (match parsePaymaster op.paymasterAndData with
          | some _ => [Phase.paymaster] | none => []) ∧
    (∀ m, parseFactory op.initCode ≠ none → (evm Phase.factory).err = some m
      → m ∈ (simulateValidationModel rep evm op).errors) ∧
    (∀ m, (evm Phase.sender).err = some m
      → m ∈ (simulateValidationModel rep evm op).errors) := by
  have hpe : (precheckErrors rep (parseFactory op.initCode)
      (parsePaymaster op.paymasterAndData)).isEmpty = true := by
    rw [hpre]; rfl
  unfold simulateValidationModel
  simp only [hpe, if_true]
  refine ⟨rfl, ?_, ?_⟩
  · intro m hf hm
    show m ∈ phaseErrors evm (parseFactory op.initCode)
      (parsePaymaster op.paymasterAndData)
    unfold phaseErrors
    cases hff : parseFactory op.initCode with
    | none => exact absurd hff hf
    | some x =>
        refine List.mem_append_left _ (List.mem_append_left _ ?_)
        simp [hm]
  · intro m hm
    show m ∈ phaseErrors evm (parseFactory op.initCode)
      (parsePaymaster op.paymasterAndData)
    unfold phaseErrors
    refine List.mem_append_left _ (List.mem_append_right _ ?_)
    simp [hm]

/-- Witness for C2: a factory call that throws at a concrete operation. -/
theorem phase_error_continues_witness :
    precheckErrors emptyRepStore (parseFactory c2Op.initCode)
      (parsePaymaster c2Op.paymasterAndData) = [] ∧
    ((simulateValidationModel emptyRepStore c2Evm c2Op).evmCalls
      = (match parseFactory c2Op.initCode with
          | some _ => [Phase.factory] | none => [])
        ++ [Phase.sender]
        ++ (match parsePaymaster c2Op.paymasterAndData with
          | some _ => [Phase.paymaster] | none => []) ∧
     (∀ m, parseFactory c2Op.initCode ≠ none → (c2Evm Phase.factory).err = some m
       → m ∈ (simulateValidationModel emptyRepStore c2Evm c2Op).errors) ∧
     (∀ m, (c2Evm Phase.sender).err = some m
       → m ∈ (simulateValidationModel emptyRepStore c2Evm c2Op).errors)) :=
  ⟨by decide, phase_error_continues emptyRepStore c2Evm c2Op (by decide)⟩

/-! ## C3: the structural validator -/

theorem dropWhile_ws_of_none {l : List Char}
    (h : ∀ c ∈ l, c.isWhitespace = false) :
    l.dropWhile Char.isWhitespace = l := by
  cases l with
  | nil => rfl
  | cons c r => rw [List.dropWhile_cons, h c (by simp)]; simp

theorem trimWs_of_no_ws {l : List Char} (h : ∀ c ∈ l, c.isWhitespace = false) :
    trimWs l = l := by
  unfold trimWs
  rw [dropWhile_ws_of_none h,
    dropWhile_ws_of_none (fun c hc => h c (List.mem_reverse.mp hc)),
    List.reverse_reverse]

theorem no_ws_of_0x_hex {rest : List Char} (hall : rest.all isHexDigitChar = true) :
    ∀ c ∈ ('0' :: 'x' :: rest), c.isWhitespace = false := by
  intro c hc
  simp only [List.mem_cons] at hc
  rcases hc with rfl | rfl | hc
  · decide
  · decide
  · exact isHexDigitChar_not_ws (List.all_eq_true.mp hall c hc)

theorem bigIntOfString_of_hexNumber {s : String}
    (h : isValidHexNumber s = true) : (bigIntOfString s).isSome = true := by
  unfold isValidHexNumber at h
  split at h
  · next rest heq =>
      simp only [Bool.and_eq_true] at h
      unfold bigIntOfString
      rw [heq, trimWs_of_no_ws (no_ws_of_0x_hex h.2)]
      show (bigIntDigits 16 isHexDigitChar rest).isSome = true
      unfold bigIntDigits
      rw [if_pos (by simp [h.1, h.2])]
      rfl
  · exact absurd h (by simp)

theorem isHexPrefixed_of_hexString {s : String}
    (h : isValidHexString s = true) : isHexPrefixed s = true := by
  unfold isValidHexString at h
  split at h
  · next rest heq => unfold isHexPrefixed; rw [heq]; rfl
  · exact absurd h (by simp)

theorem isHexPrefixed_of_hexNumber {s : String}
    (h : isValidHexNumber s = true) : isHexPrefixed s = true := by
  unfold isValidHexNumber at h
  split at h
  · next rest heq => unfold isHexPrefixed; rw [heq]; rfl
  · exact absurd h (by simp)

theorem isHexPrefixed_of_parseAddr {s : String}
    (h : (parseAddr s).isSome = true) : isHexPrefixed s = true := by
  unfold parseAddr at h
  split at h
  · next rest heq => unfold isHexPrefixed; rw [heq]; rfl
  · exact absurd h (by simp)

theorem fieldHexL_isSome_str {s : String} (h : isHexPrefixed s = true) :
    (fieldHexL (Jv.str s)).isSome = true := by
  simp [fieldHexL, h]

theorem jvToBigInt_isSome_of_amended {v : Jv} (h : amendedNumFieldOk v = true) :
    (jvToBigInt v).isSome = true := by
  cases v with
  | str s => exact bigIntOfString_of_hexNumber (by simpa [amendedNumFieldOk] using h)
  | int n => rfl
  | big n => rfl
  | nonIntNum r => exact absurd h (by simp [amendedNumFieldOk])
  | objLike r => exact absurd h (by simp [amendedNumFieldOk])

theorem fieldHexL_isSome_of_amendedNum {v : Jv} (h : amendedNumFieldOk v = true) :
    (fieldHexL v).isSome = true := by
  cases v with
  | str s =>
      exact fieldHexL_isSome_str
        (isHexPrefixed_of_hexNumber (by simpa [amendedNumFieldOk] using h))
  | int n => rfl
  | big n => rfl
  | nonIntNum r => exact absurd h (by simp [amendedNumFieldOk])
  | objLike r => exact absurd h (by simp [amendedNumFieldOk])

theorem fieldCost_isSome {v : Jv} (h : (fieldHexL v).isSome = true) :
    (fieldCost v).isSome = true := by
  unfold fieldCost
  cases hf : fieldHexL v with
  | none => rw [hf] at h; exact absurd h (by simp)
  | some l => simp

theorem foldlM_cost_isSome (fs : List Jv) (base : Nat)
    (h : ∀ v ∈ fs, (fieldCost v).isSome = true) :
    (fs.foldlM (fun acc v => (fieldCost v).map (acc + ·)) base).isSome = true := by
  induction fs generalizing base with
  | nil => rfl
  | cons v rest ih =>
      rw [List.foldlM_cons]
      cases hv : fieldCost v with
      | none => exact absurd (h v (by simp)) (by simp [hv])
      | some c =>
          simp only [hv, Option.map_some', Option.bind_eq_bind, Option.some_bind]
          exact ih _ (fun w hw => h w (by simp [hw]))

theorem isEmpty_append {α : Type} (l1 l2 : List α) :
    (l1 ++ l2).isEmpty = (l1.isEmpty && l2.isEmpty) := by
  cases l1 <;> simp

theorem isEmpty_errIf (b : Bool) (m : String) :
    (if !b then [m] else []).isEmpty = b := by
  cases b <;> simp

theorem isEmpty_errIfProp (p : Prop) [Decidable p] (m : String) :
    (if p then ([m] : List String) else []).isEmpty = !(decide p) := by
  split <;> simp_all

theorem bigIntOrHex_eq_amendedNum (v : Jv) :
    isValidBigIntOrHexJv v true = amendedNumFieldOk v := by
  cases v <;> simp [isValidBigIntOrHexJv, amendedNumFieldOk]

theorem addrJv_eq_senderParses (v : Jv) :
    isValidAddressJv v = senderParsesOk v := by
  cases v <;> simp [isValidAddressJv, senderParsesOk]

theorem hexStringJv_eq_byteShape (v : Jv) :
    isValidHexStringJv v = byteFieldShapeOk v := by
  cases v <;> simp [isValidHexStringJv, byteFieldShapeOk]

theorem packedUints_eq_shape_and_66 (v : Jv) :
    isValidPackedUintsJv v = (byteFieldShapeOk v && is66Chars v) := by
  cases v <;> simp [isValidPackedUintsJv, byteFieldShapeOk, is66Chars]

theorem decide_ge_eq_not_lt (a b : Int) :
    decide (b ≤ a) = !decide (a < b) := by
  simp [← decide_not, Int.not_lt]

/-- C3 counterexample: the operation `c3Cex` — whose nonce is the negative
bigint `-1n`, neither a non-negative integer nor a hex number — is accepted
by `validateUserOpStructure`, refuting the claim's "exactly when". -/
theorem validateUserOpStructure_claim_counterexample :
    structIsValid c3Cex = true ∧ claimStructuralValid c3Cex = false :=
  ⟨by decide, by decide⟩

/-- C3 (amended): `validateUserOpStructure` returns `isValid = true` exactly
when all nine fields are present, the sender parses as an address, the byte
fields have even-length hex shape, `accountGasLimits` and `gasFees` have 66
characters, `nonce` and `preVerificationGas` are bigints (of any sign),
non-negative integers, or valid hex numbers, and the declared
`preVerificationGas` is at least `calcPreVerificationGas(op)`. -/
theorem validateUserOpStructure_isValid_iff (u : UserOpInput) :
    structIsValid u = amendedStructuralValid u := by
  obtain ⟨os, onn, oic, ocd, oagl, opvg, ogf, opmd, osig⟩ := u
  cases os with
  | none => rfl
  | some vs =>
  cases onn with
  | none => rfl
  | some vn =>
  cases oic with
  | none => rfl
  | some vic =>
  cases ocd with
  | none => rfl
  | some vcd =>
  cases oagl with
  | none => rfl
  | some vagl =>
  cases opvg with
  | none => rfl
  | some vpvg =>
  cases ogf with
  | none => rfl
  | some vgf =>
  cases opmd with
  | none => rfl
  | some vpmd =>
  cases osig with
  | none => rfl
  | some vsig =>
  cases hbig : jvToBigInt vpvg with
  | none =>
      simp [structIsValid, validateUserOpStructure, validateGasLimits,
        amendedStructuralValid, structuralValidWith, pvgAtLeastCalc, hbig]
  | some pvg =>
      cases hcalc : calcPreVerificationGas
          ⟨vs, vn, vic, vcd, vagl, vpvg, vgf, vpmd, vsig⟩ with
      | none =>
          simp [structIsValid, validateUserOpStructure, validateGasLimits,
            amendedStructuralValid, structuralValidWith, pvgAtLeastCalc,
            hbig, hcalc]
      | some c =>
          simp only [structIsValid, validateUserOpStructure, validateGasLimits,
            hbig, hcalc, Option.map_some', hexFieldError,
            isEmpty_append, isEmpty_errIf, isEmpty_errIfProp,
            amendedStructuralValid, structuralValidWith, pvgAtLeastCalc,
            bigIntOrHex_eq_amendedNum, addrJv_eq_senderParses,
            hexStringJv_eq_byteShape, packedUints_eq_shape_and_66,
            decide_ge_eq_not_lt]
          rw [Bool.eq_iff_iff]
          simp only [Bool.decide_coe, Bool.not_not, Bool.and_eq_true]
          tauto

end UserOpValidator
